import Mathlib

/-!
Verification development for internal/pkg/runtime/engines/oci/process.go.

The Go file implements the child-side container start sequence
(StartProcess, emptyProcess), the parent-side controller steps
(PreStartProcess, PostStartProcess), one resource-limit helper (setRlimit),
a write fan-out primitive (multiWriter with Write, Add, MultiWriter) and the
attach accept loop (handleStream).

The embedding below is shallow: every external collaborator call
(os.Chdir, rlimit.Set, exec.LookPath, security.Configure, syscall.Exec,
connection reads and writes, instance.Get, unix.CreateSocket, updateState,
hook execution, listener Accept) is an oracle whose outcome is a field of an
environment record, and each function is translated into a pure Lean
function from its configuration and that environment to a result together
with the ordered list of observable actions it performed.
-/

namespace Oci

/-- Error values returned by external collaborators, kept as their message
strings. -/
abbrev Err := String

/-- One resource limit entry, mirroring specs.POSIXRlimit (Type, Soft, Hard). -/
structure POSIXRlimit where
  type : String
  soft : Nat
  hard : Nat
  deriving Repr, DecidableEq

/-- Observable actions performed by the child process in StartProcess and
emptyProcess, in program order. -/
inductive Event where
  | chdir (path : String)
  | rlimitSet (kind : String) (soft hard : Nat)
  | setenvPath (v : String)
  | lookPath (arg : String)
  | ptsSetup
  | connWrite (b : Nat)
  | connRead
  | connClose
  | securityConfigure
  | exec (path : String)
  | logError (msg : String)
  deriving Repr, DecidableEq

/-- Loop of setRlimit (process.go lines 31-47).  The first argument of the
recursion is the accumulated resources slice of already seen kinds.  Each
iteration first calls rlimit.Set (recorded as an rlimitSet event for the
attempt), then scans the accumulated kinds for a duplicate of the current
kind, then appends the current kind. -/
def setRlimitLoop (set : String → Nat → Nat → Option Err) :
    List String → List POSIXRlimit → Option Err × List Event
  | _, [] => (none, [])
  | seen, rl :: rest =>
    match set rl.type rl.soft rl.hard with
    | some e => (some e, [Event.rlimitSet rl.type rl.soft rl.hard])
    | none =>
      if seen.contains rl.type then
        (some (rl.type ++ " was already set"), [Event.rlimitSet rl.type rl.soft rl.hard])
      else
        let r := setRlimitLoop set (seen ++ [rl.type]) rest
        (r.1, Event.rlimitSet rl.type rl.soft rl.hard :: r.2)

/-- setRlimit (process.go lines 31-47), starting from an empty resources
slice. -/
def setRlimit (set : String → Nat → Nat → Option Err) (rlimits : List POSIXRlimit) :
    Option Err × List Event :=
  setRlimitLoop set [] rlimits

/-- The process part of the OCI runtime configuration that StartProcess
reads: Cwd, Args, Env and Rlimits. -/
structure OciProcess where
  cwd : String
  args : List String
  env : List String
  rlimits : List POSIXRlimit

/-- The engine configuration fields used by the child side: the process
section, the EmptyProcess flag and the MasterPts descriptor (-1 means no
pseudo-terminal pair). -/
structure EngineConfig where
  process : OciProcess
  emptyProcess : Bool
  masterPts : Int

/-- Outcomes of external collaborator calls made by the child.  writeRes and
readRes are indexed by the occurrence number of the write and read on the
handshake connection (0-based).  ptsErr stands for the first failing step of
the pseudo-terminal block (the three Dup3 calls, the two Close calls, Setsid
and the TIOCSCTTY ioctl, process.go lines 126-149); none means all of them
succeeded.  execErr none means syscall.Exec succeeded, replacing the process
image and never returning. -/
structure ChildEnv where
  chdirErr : String → Option Err
  set : String → Nat → Nat → Option Err
  lookPath : String → Except Err String
  ptsErr : Option Err
  writeRes : Nat → Option Err
  readRes : Nat → Option Err
  securityErr : Option Err
  execErr : Option Err

/-- Terminal outcome of the child start sequence. -/
inductive ChildOutcome where
  | fail (msg : String)
  | execed (path : String)
  | emptyLoop
  | panicked (msg : String)
  deriving Repr, DecidableEq

/-- Go filepath.IsAbs on unix: the path starts with a slash. -/
def isAbs (s : String) : Bool :=
  match s.data with
  | [] => false
  | c :: _ => c = '/'

/-- Substitution of the default working directory (process.go lines 89-93):
an empty Cwd is replaced by the root directory. -/
def resolveCwd (c : String) : String :=
  if c = "" then "/" else c

/-- The byte value of the character t, the single-byte token written on the
handshake connection by the child. -/
def tokByte : Nat := 116

/-- Events of the PATH scan over the environment list (process.go lines
114-118): every entry starting with PATH= leads to an os.Setenv call. -/
def pathEnvEvents : List String → List Event
  | [] => []
  | e :: rest =>
    if e.startsWith "PATH=" then Event.setenvPath (e.drop 5) :: pathEnvEvents rest
    else pathEnvEvents rest

/-- emptyProcess (process.go lines 49-85): write the pause token, block
reading the resume ack, close the connection, apply the security policy and
enter the indefinite signal loop. -/
def emptyProcessRun (env : ChildEnv) : ChildOutcome × List Event :=
  match env.writeRes 0 with
  | some e => (ChildOutcome.fail ("failed to pause process: " ++ e), [Event.connWrite tokByte])
  | none =>
    match env.readRes 0 with
    | some e => (ChildOutcome.fail ("failed to receive ack from Smaster: " ++ e),
                 [Event.connWrite tokByte, Event.connRead])
    | none =>
      match env.securityErr with
      | some e => (ChildOutcome.fail ("failed to apply security configuration: " ++ e),
                   [Event.connWrite tokByte, Event.connRead, Event.connClose,
                    Event.securityConfigure])
      | none => (ChildOutcome.emptyLoop,
                 [Event.connWrite tokByte, Event.connRead, Event.connClose,
                  Event.securityConfigure])

/-- The pseudo-terminal block of StartProcess (process.go lines 126-149):
skipped when MasterPts is -1, otherwise it performs the descriptor setup and
fails with the first failing step. -/
def ptsPhase (cfg : EngineConfig) (env : ChildEnv) : Option Err × List Event :=
  if cfg.masterPts = -1 then (none, [])
  else
    match env.ptsErr with
    | some e => (some e, [Event.ptsSetup])
    | none => (none, [Event.ptsSetup])

/-- The handshake and exec tail of StartProcess (process.go lines 151-175):
write the pause token, block reading the resume ack, apply the security
policy, exec the resolved binary; if exec returns, write one best-effort
token (a failure there is only logged) and return the exec error. -/
def handshakePhase (env : ChildEnv) (bpath : String) : ChildOutcome × List Event :=
  match env.writeRes 0 with
  | some e => (ChildOutcome.fail ("failed to pause process: " ++ e), [Event.connWrite tokByte])
  | none =>
    match env.readRes 0 with
    | some e => (ChildOutcome.fail ("failed to receive ack from Smaster: " ++ e),
                 [Event.connWrite tokByte, Event.connRead])
    | none =>
      match env.securityErr with
      | some e => (ChildOutcome.fail ("failed to apply security configuration: " ++ e),
                   [Event.connWrite tokByte, Event.connRead, Event.securityConfigure])
      | none =>
        match env.execErr with
        | none => (ChildOutcome.execed bpath,
                   [Event.connWrite tokByte, Event.connRead, Event.securityConfigure,
                    Event.exec bpath])
        | some e =>
          match env.writeRes 1 with
          | none => (ChildOutcome.fail ("exec " ++ bpath ++ " failed: " ++ e),
                     [Event.connWrite tokByte, Event.connRead, Event.securityConfigure,
                      Event.exec bpath, Event.connWrite tokByte])
          | some we => (ChildOutcome.fail ("exec " ++ bpath ++ " failed: " ++ e),
                        [Event.connWrite tokByte, Event.connRead, Event.securityConfigure,
                         Event.exec bpath, Event.connWrite tokByte,
                         Event.logError ("fail to send data to Smaster: " ++ we)])

/-- StartProcess (process.go lines 88-176): resolve and check the working
directory, change into it, apply the resource limits, branch to emptyProcess
when requested, scan the environment for PATH entries, resolve argument 0,
run the pseudo-terminal block, then the handshake and exec tail.  Indexing
args before LookPath faults when the argument vector is empty. -/
def startProcess (cfg : EngineConfig) (env : ChildEnv) : ChildOutcome × List Event :=
  let cwd := resolveCwd cfg.process.cwd
  if isAbs cwd = false then
    (ChildOutcome.fail "cwd property must be an absolute path", [])
  else
    match env.chdirErr cwd with
    | some e => (ChildOutcome.fail ("can\x27t enter in current working directory: " ++ e),
                 [Event.chdir cwd])
    | none =>
      match setRlimit env.set cfg.process.rlimits with
      | (some e, tr) => (ChildOutcome.fail e, Event.chdir cwd :: tr)
      | (none, tr) =>
        if cfg.emptyProcess then
          let r := emptyProcessRun env
          (r.1, Event.chdir cwd :: tr ++ r.2)
        else
          let pe := pathEnvEvents cfg.process.env
          match cfg.process.args with
          | [] => (ChildOutcome.panicked "index out of range", Event.chdir cwd :: tr ++ pe)
          | a0 :: _ =>
            match env.lookPath a0 with
            | Except.error e =>
                (ChildOutcome.fail e, Event.chdir cwd :: tr ++ pe ++ [Event.lookPath a0])
            | Except.ok bpath =>
              match ptsPhase cfg env with
              | (some e, ptr) =>
                  (ChildOutcome.fail e,
                   Event.chdir cwd :: tr ++ pe ++ [Event.lookPath a0] ++ ptr)
              | (none, ptr) =>
                let r := handshakePhase env bpath
                (r.1, Event.chdir cwd :: tr ++ pe ++ [Event.lookPath a0] ++ ptr ++ r.2)

/-- Observable actions performed by the parent controller in PreStartProcess,
PostStartProcess and the driver around them, in program order.  annotate
records the write into the state Annotations map. -/
inductive PEvent where
  | kill (pid : Int)
  | hook (i : Nat)
  | annotate (key val : String)
  | createSocket (path : String)
  | updateState (s : String)
  | spawnHandleStream
  | connWrite (b : Nat)
  | connRead
  | logWarn (msg : String)
  deriving Repr, DecidableEq

/-- Outcome of the one-byte read ending PreStartProcess: the error value
returned by masterConn.Read.  none models a successful read of a data byte
(a nil error), eof models io.EOF, other models any other read error. -/
inductive ReadErr where
  | eof
  | other (msg : String)
  deriving Repr, DecidableEq

/-- Outcomes of external collaborator calls made by the parent controller.
instGet is the pair of the Path field of the file returned by instance.Get
and the error it returned alongside.  finalRead is the error value of the
read at the end of PreStartProcess (see ReadErr). -/
structure ParentEnv where
  prestartHookErr : Nat → Option Err
  poststartHookErr : Nat → Option Err
  instGet : String × Option Err
  createSocketErr : Option Err
  updateStateErr : String → Option Err
  ackWriteErr : Option Err
  finalRead : Option ReadErr

/-- Configuration read by PreStartProcess: the container identifier, the
number of Prestart hooks and the MasterPts descriptor. -/
structure PreStartCfg where
  containerID : String
  prestartHooks : Nat
  masterPts : Int

/-- The last path segment dropped from a character list: everything after
the final slash, and the final slash itself, is removed. -/
def dropLastSegment (cs : List Char) : List Char :=
  (((cs.reverse.dropWhile fun c => c ≠ '/').drop 1)).reverse

/-- Model of path/filepath.Dir for the cleaned, slash-separated paths this
code passes to it: drop the last path segment, or return a dot when the
path has no slash at all. -/
def dirPath (s : String) : String :=
  if s.data.contains '/' then String.mk (dropLastSegment s.data) else "."

/-- The byte value of the character s, the resume-ack token written by the
parent on the handshake connection. -/
def ackByte : Nat := 115

/-- The Prestart hook loop of PreStartProcess (process.go lines 185-192):
hooks run in order starting at index k and the first failure is returned. -/
def runPrestartHooks (hookErr : Nat → Option Err) : Nat → Nat → Option Err × List PEvent
  | _, 0 => (none, [])
  | k, n + 1 =>
    match hookErr k with
    | some e => (some e, [PEvent.hook k])
    | none =>
      let r := runPrestartHooks hookErr (k + 1) n
      (r.1, PEvent.hook k :: r.2)

/-- PreStartProcess (process.go lines 179-230): stop the child, run the
Prestart hooks, look the instance metadata up (the error of that lookup is
never inspected), record the attach-socket path in the state Annotations,
create the socket, persist the created state, start handleStream, write the
resume-ack byte and read until the connection reports an outcome; only an
error other than io.EOF is returned, and a data byte read with a nil error
makes the function return the nil error. -/
def preStartProcess (pid : Int) (cfg : PreStartCfg) (env : ParentEnv) :
    Option Err × List PEvent :=
  match runPrestartHooks env.prestartHookErr 0 cfg.prestartHooks with
  | (some e, htr) => (some e, PEvent.kill pid :: htr)
  | (none, htr) =>
    let socket := dirPath env.instGet.1 ++ "/" ++ cfg.containerID ++ ".sock"
    let base := PEvent.kill pid :: htr ++
      [PEvent.annotate "io.sylabs.runtime.oci.attach-socket" socket]
    match env.createSocketErr with
    | some e => (some e, base ++ [PEvent.createSocket socket])
    | none =>
      match env.updateStateErr "created" with
      | some e => (some e, base ++ [PEvent.createSocket socket, PEvent.updateState "created"])
      | none =>
        let base := base ++ [PEvent.createSocket socket, PEvent.updateState "created",
                             PEvent.spawnHandleStream]
        match env.ackWriteErr with
        | some e => (some ("failed to send ACK to start process: " ++ e),
                     base ++ [PEvent.connWrite ackByte])
        | none =>
          let base := base ++ [PEvent.connWrite ackByte, PEvent.connRead]
          match env.finalRead with
          | some ReadErr.eof => (none, base)
          | some (ReadErr.other e) => (some e, base)
          | none => (none, base)

/-- The Poststart hook loop of PostStartProcess (process.go lines 239-246):
every hook runs and a failure is only logged as a warning. -/
def runPoststartHooks (hookErr : Nat → Option Err) : Nat → Nat → List PEvent
  | _, 0 => []
  | k, n + 1 =>
    match hookErr k with
    | some e => PEvent.hook k :: PEvent.logWarn e :: runPoststartHooks hookErr (k + 1) n
    | none => PEvent.hook k :: runPoststartHooks hookErr (k + 1) n

/-- PostStartProcess (process.go lines 234-249): persist the running state,
then run the Poststart hooks, logging failures without aborting. -/
def postStartProcess (poststartHooks : Nat) (env : ParentEnv) : Option Err × List PEvent :=
  match env.updateStateErr "running" with
  | some e => (some e, [PEvent.updateState "running"])
  | none => (none, PEvent.updateState "running" ::
               runPoststartHooks env.poststartHookErr 0 poststartHooks)

/-- Modelled from the spec: the engine driver that calls these methods is not
part of this file; per the spec it runs PreStartProcess once the child
exists and runs PostStartProcess exactly when PreStartProcess returned
without error. -/
def controllerStartSequence (pid : Int) (cfg : PreStartCfg) (poststartHooks : Nat)
    (env : ParentEnv) : Option Err × List PEvent :=
  match preStartProcess pid cfg env with
  | (some e, tr) => (some e, tr)
  | (none, tr) =>
    let r := postStartProcess poststartHooks env
    (r.1, tr ++ r.2)

/-- Destination writers as multiWriter sees them: either an opaque base
writer identified by a number, or a nested multiWriter holding its writers
slice. -/
inductive GoWriter where
  | base (id : Nat)
  | mw (writers : List GoWriter)
  deriving Repr

mutual
/-- One w.Write(p) call inside the multiWriter.Write loop (process.go line
261): a base writer answers with its behavior, a nested multiWriter runs its
own Write loop.  The second component collects one (id, p) delivery record
per base-writer Write call. -/
def writeOne (beh : Nat → List Nat → Nat × Option Err) (p : List Nat) :
    GoWriter → (Nat × Option Err) × List (Nat × List Nat)
  | GoWriter.base i => (beh i p, [(i, p)])
  | GoWriter.mw ws => writeAll beh p ws

/-- multiWriter.Write (process.go lines 256-271) over a writers slice: write
to every destination in order, return the first error as is, turn a short
write into the short write error, and report (len p, no error) only after
every destination accepted the full sequence. -/
def writeAll (beh : Nat → List Nat → Nat × Option Err) (p : List Nat) :
    List GoWriter → (Nat × Option Err) × List (Nat × List Nat)
  | [] => ((p.length, none), [])
  | w :: ws =>
    let r := writeOne beh p w
    match r.1.2 with
    | some e => ((r.1.1, some e), r.2)
    | none =>
      if r.1.1 ≠ p.length then ((r.1.1, some "short write"), r.2)
      else
        let rest := writeAll beh p ws
        (rest.1, r.2 ++ rest.2)
end

/-- The type switch inside MultiWriter (process.go lines 282-288): a
multiWriter argument contributes its writers slice, any other writer
contributes itself. -/
def flattenArg : GoWriter → List GoWriter
  | GoWriter.mw inner => inner
  | w => [w]

/-- The construction loop of MultiWriter over its arguments. -/
def appendFlattened : List GoWriter → List GoWriter
  | [] => []
  | w :: ws => flattenArg w ++ appendFlattened ws

/-- MultiWriter (process.go lines 279-290): build a multiWriter whose
writers slice flattens one level of multiWriter arguments. -/
def MultiWriterGo (ws : List GoWriter) : GoWriter :=
  GoWriter.mw (appendFlattened ws)

/-- multiWriter.Add (process.go lines 273-277): append the given writer to
the writers slice as it is. -/
def addGo : GoWriter → GoWriter → GoWriter
  | GoWriter.mw ws, w => GoWriter.mw (ws ++ [w])
  | b, _ => b

/-- Stated from the words of the claim, for comparison with addGo which is
translated from the source: an add operation that flattens a broadcaster
argument to its current set of underlying destinations at add time. -/
def addSpec : GoWriter → GoWriter → GoWriter
  | GoWriter.mw ws, w => GoWriter.mw (ws ++ flattenArg w)
  | b, _ => b

/-- Observable actions of the handleStream accept loop, in program order. -/
inductive StreamEvent where
  | skipped (numClient : Nat)
  | accepted (numClient conn : Nat)
  | firstWire (conn : Nat)
  | added (conn : Nat)
  | spawnCopyBack (conn : Nat)
  | fatalExit (msg : String)
  | panickedIndex (idx len : Nat)
  deriving Repr, DecidableEq

/-- The accept loop of handleStream (process.go lines 311-336), unrolled for
a bounded number of iterations.  numClient is the value after the increment
at the top of the loop body (it starts at -1 and is incremented before the
cap test), acc counts the Accept calls made so far, mwStarted records
whether the first client already created the broadcaster.  An iteration at
the cap only skips; an iteration past the cap evaluates l.Accept() and then
faults on the out-of-range assignment into the 10-element connection slice,
whatever Accept returned. -/
def handleStreamLoop (accept : Nat → Except Err Nat) (maxClient : Nat) :
    Nat → Nat → Nat → Bool → List StreamEvent
  | 0, _, _, _ => []
  | fuel + 1, numClient, acc, mwStarted =>
    if numClient = maxClient then
      StreamEvent.skipped numClient ::
        handleStreamLoop accept maxClient fuel (numClient + 1) acc mwStarted
    else
      match accept acc with
      | Except.error e =>
        if numClient < maxClient then [StreamEvent.fatalExit e]
        else [StreamEvent.panickedIndex numClient maxClient]
      | Except.ok c =>
        if numClient < maxClient then
          (StreamEvent.accepted numClient c) ::
            (if mwStarted then StreamEvent.added c else StreamEvent.firstWire c) ::
            StreamEvent.spawnCopyBack c ::
            handleStreamLoop accept maxClient fuel (numClient + 1) (acc + 1) true
        else
          [StreamEvent.accepted numClient c, StreamEvent.panickedIndex numClient maxClient]

/-- handleStream (process.go lines 299-337) with its fixed ten-client cap,
observed for the given number of loop iterations. -/
def handleStream (accept : Nat → Except Err Nat) (fuel : Nat) : List StreamEvent :=
  handleStreamLoop accept 10 fuel 0 0 false

/-- Recognizer for the events that wire an accepted client into the stream
graph (the first-client broadcaster creation or a broadcaster Add). -/
def isWireEvent : StreamEvent → Bool
  | StreamEvent.firstWire _ => true
  | StreamEvent.added _ => true
  | _ => false

/-- Recognizer for handshake write events of the child. -/
def isConnWrite : Event → Bool
  | Event.connWrite _ => true
  | _ => false

/-- Events that StartProcess can emit before the handshake phase: directory
change, resource-limit application, PATH scan, binary resolution and the
pseudo-terminal block. -/
def isPreEvent : Event → Bool
  | Event.chdir _ => true
  | Event.rlimitSet _ _ _ => true
  | Event.setenvPath _ => true
  | Event.lookPath _ => true
  | Event.ptsSetup => true
  | _ => false

/-- Child-side environment in which every collaborator call succeeds, the
binary resolves to /bin/true, and exec succeeds; used to instantiate
universally quantified theorems at a concrete input. -/
def okChildEnv : ChildEnv where
  chdirErr := fun _ => none
  set := fun _ _ _ => none
  lookPath := fun _ => Except.ok "/bin/true"
  ptsErr := none
  writeRes := fun _ => none
  readRes := fun _ => none
  securityErr := none
  execErr := none

/-- A concrete well-formed configuration: root working directory, a single
argument, no environment entries, no resource limits, normal mode, no
pseudo-terminal pair. -/
def okCfg : EngineConfig where
  process := { cwd := "/", args := ["/bin/true"], env := [], rlimits := [] }
  emptyProcess := false
  masterPts := -1

/-- A configuration whose working directory is relative and non-empty. -/
def relCfg : EngineConfig where
  process := { cwd := "var/tmp", args := ["/bin/true"], env := [], rlimits := [] }
  emptyProcess := false
  masterPts := -1

/-- A configuration whose working-directory field is the empty string. -/
def emptyCwdCfg : EngineConfig where
  process := { cwd := "", args := ["/bin/true"], env := [], rlimits := [] }
  emptyProcess := false
  masterPts := -1

/-- The all-success child environment with a failing security-policy
application. -/
def secFailChildEnv : ChildEnv where
  chdirErr := fun _ => none
  set := fun _ _ _ => none
  lookPath := fun _ => Except.ok "/bin/true"
  ptsErr := none
  writeRes := fun _ => none
  readRes := fun _ => none
  securityErr := some "denied"
  execErr := none

/-- Parent-side environment in which every collaborator call succeeds and
the final handshake read returns one data byte with a nil error, the outcome
the child produces right after a failed exec or after dying before closing
the connection cleanly. -/
def dataByteParentEnv : ParentEnv where
  prestartHookErr := fun _ => none
  poststartHookErr := fun _ => none
  instGet := ("/run/s/c1.json", none)
  createSocketErr := none
  updateStateErr := fun _ => none
  ackWriteErr := none
  finalRead := none

/-- A concrete parent-side configuration with no Prestart hooks. -/
def okPreCfg : PreStartCfg where
  containerID := "c1"
  prestartHooks := 0
  masterPts := -1

/- Theorems. -/

theorem setRlimitLoop_first_dup (set : String → Nat → Nat → Option Err) :
    ∀ (pre : List POSIXRlimit) (seen : List String) (rl : POSIXRlimit)
      (post : List POSIXRlimit),
    (∀ r ∈ pre, set r.type r.soft r.hard = none) →
    set rl.type rl.soft rl.hard = none →
    (seen ++ pre.map (fun r => r.type)).Nodup →
    rl.type ∈ seen ++ pre.map (fun r => r.type) →
    setRlimitLoop set seen (pre ++ rl :: post) =
      (some (rl.type ++ " was already set"),
       (pre ++ [rl]).map fun r => Event.rlimitSet r.type r.soft r.hard) := by
  intro pre
  induction pre with
  | nil =>
    intro seen rl post _ hrl _ hmem
    simp only [List.map_nil, List.append_nil] at hmem
    simp [setRlimitLoop, hrl, hmem]
  | cons p pre ih =>
    intro seen rl post hpre hrl hnodup hmem
    have hp : set p.type p.soft p.hard = none := hpre p (by simp)
    have hpn : p.type ∉ seen := by
      simp only [List.map_cons, List.nodup_append] at hnodup
      intro habs
      exact hnodup.2.2 habs (by simp)
    have hassoc : seen ++ p.type :: pre.map (fun r => r.type)
        = (seen ++ [p.type]) ++ pre.map (fun r => r.type) := by simp
    have ih' := ih (seen ++ [p.type]) rl post (fun r hr => hpre r (by simp [hr])) hrl
      (by
        have := hnodup
        simp only [List.map_cons] at this
        rw [hassoc] at this
        exact this)
      (by
        have := hmem
        simp only [List.map_cons] at this
        rw [hassoc] at this
        exact this)
    simp [setRlimitLoop, hp, hpn, ih']

theorem setRlimit_any_dup (set : String → Nat → Nat → Option Err) :
    ∀ (ls : List POSIXRlimit) (seen : List String),
    seen.Nodup → ¬ (seen ++ ls.map (fun r => r.type)).Nodup →
    ((setRlimitLoop set seen ls).1).isSome = true := by
  intro ls
  induction ls with
  | nil =>
    intro seen hs hd
    simp at hd
    exact absurd hs hd
  | cons p ls ih =>
    intro seen hs hd
    match hset : set p.type p.soft p.hard with
    | some e => simp [setRlimitLoop, hset]
    | none =>
      by_cases hmem : p.type ∈ seen
      · simp [setRlimitLoop, hset, hmem]
      · have hs' : (seen ++ [p.type]).Nodup := by
          simp [List.nodup_append, hs]
          exact hmem
        have hd' : ¬ ((seen ++ [p.type]) ++ ls.map (fun r => r.type)).Nodup := by
          intro habs
          apply hd
          simp only [List.map_cons]
          rw [show seen ++ p.type :: ls.map (fun r => r.type)
              = (seen ++ [p.type]) ++ ls.map (fun r => r.type) by simp]
          exact habs
        have := ih (seen ++ [p.type]) hs' hd'
        simpa [setRlimitLoop, hset, hmem] using this

/-- Claim C7: a resource-limit list whose kinds repeat makes setRlimit fail;
at the first duplicate (all earlier lines distinct and every Set call up to
and including the duplicate succeeding), the error names the duplicated
kind, the applied entries are exactly the entries up to and including the
duplicate (the model has no rollback action), and nothing past the
duplicate is applied. -/
theorem setRlimit_duplicate_kind :
    (∀ (set : String → Nat → Nat → Option Err) (ls : List POSIXRlimit),
      ¬ (ls.map (fun r => r.type)).Nodup → ((setRlimit set ls).1).isSome = true) ∧
    (∀ (set : String → Nat → Nat → Option Err) (pre : List POSIXRlimit)
       (rl : POSIXRlimit) (post : List POSIXRlimit),
      (∀ r ∈ pre, set r.type r.soft r.hard = none) →
      set rl.type rl.soft rl.hard = none →
      (pre.map (fun r => r.type)).Nodup →
      rl.type ∈ pre.map (fun r => r.type) →
      setRlimit set (pre ++ rl :: post) =
        (some (rl.type ++ " was already set"),
         (pre ++ [rl]).map fun r => Event.rlimitSet r.type r.soft r.hard)) := by
  constructor
  · intro set ls hd
    exact setRlimit_any_dup set ls [] (by simp) (by simpa using hd)
  · intro set pre rl post hpre hrl hnodup hmem
    exact setRlimitLoop_first_dup set pre [] rl post hpre hrl (by simpa using hnodup)
      (by simpa using hmem)

/-- Witness for C7 at a concrete duplicate nofile list. -/
theorem setRlimit_duplicate_kind_witness :
    setRlimit (fun _ _ _ => none)
        [⟨"nofile", 1024, 2048⟩, ⟨"nofile", 64, 128⟩] =
      (some ("nofile" ++ " was already set"),
       [Event.rlimitSet "nofile" 1024 2048, Event.rlimitSet "nofile" 64 128]) :=
  setRlimit_duplicate_kind.2 (fun _ _ _ => none) [⟨"nofile", 1024, 2048⟩]
    ⟨"nofile", 64, 128⟩ [] (by decide) (by decide) (by decide) (by decide)

theorem setRlimitLoop_events_pre (set : String → Nat → Nat → Option Err) :
    ∀ (ls : List POSIXRlimit) (seen : List String),
    ∀ ev ∈ (setRlimitLoop set seen ls).2, isPreEvent ev = true := by
  intro ls
  induction ls with
  | nil => intro seen ev hev; simp [setRlimitLoop] at hev
  | cons p ls ih =>
    intro seen ev hev
    match hset : set p.type p.soft p.hard with
    | some e =>
      simp [setRlimitLoop, hset] at hev
      simp [hev, isPreEvent]
    | none =>
      by_cases hmem : p.type ∈ seen
      · simp [setRlimitLoop, hset, hmem] at hev
        simp [hev, isPreEvent]
      · simp [setRlimitLoop, hset, hmem] at hev
        rcases hev with hev | hev
        · simp [hev, isPreEvent]
        · exact ih (seen ++ [p.type]) ev hev

theorem pathEnvEvents_pre :
    ∀ (es : List String), ∀ ev ∈ pathEnvEvents es, isPreEvent ev = true := by
  intro es
  induction es with
  | nil => intro ev hev; simp [pathEnvEvents] at hev
  | cons e es ih =>
    intro ev hev
    by_cases hp : e.startsWith "PATH=" = true
    · simp [pathEnvEvents, hp] at hev
      rcases hev with hev | hev
      · simp [hev, isPreEvent]
      · exact ih ev hev
    · simp [pathEnvEvents, hp] at hev
      exact ih ev hev

theorem ptsPhase_events_pre (cfg : EngineConfig) (env : ChildEnv) :
    ∀ ev ∈ (ptsPhase cfg env).2, isPreEvent ev = true := by
  intro ev hev
  by_cases hm : cfg.masterPts = -1
  · simp [ptsPhase, hm] at hev
  · cases hpts : env.ptsErr with
    | some e =>
      simp [ptsPhase, hm, hpts] at hev
      simp [hev, isPreEvent]
    | none =>
      simp [ptsPhase, hm, hpts] at hev
      simp [hev, isPreEvent]

theorem startProcess_cases (cfg : EngineConfig) (env : ChildEnv)
    (hne : cfg.emptyProcess = false) (hargs : cfg.process.args ≠ []) :
    (∃ m tr, startProcess cfg env = (ChildOutcome.fail m, tr) ∧
       ∀ ev ∈ tr, isPreEvent ev = true) ∨
    (∃ bp pre, (∀ ev ∈ pre, isPreEvent ev = true) ∧
       startProcess cfg env = ((handshakePhase env bp).1, pre ++ (handshakePhase env bp).2)) := by
  by_cases habs : isAbs (resolveCwd cfg.process.cwd) = false
  · left
    exact ⟨"cwd property must be an absolute path", [], by simp [startProcess, habs], by simp⟩
  · cases hch : env.chdirErr (resolveCwd cfg.process.cwd) with
    | some e =>
      left
      have hrun : startProcess cfg env =
          (ChildOutcome.fail ("can\x27t enter in current working directory: " ++ e),
           [Event.chdir (resolveCwd cfg.process.cwd)]) := by
        simp [startProcess, habs, hch]
      refine ⟨_, _, hrun, ?_⟩
      intro ev hev
      simp at hev
      simp [hev, isPreEvent]
    | none =>
      rcases hsr : setRlimit env.set cfg.process.rlimits with ⟨o, tr⟩
      have htr : ∀ ev ∈ tr, isPreEvent ev = true := by
        intro ev hev
        exact setRlimitLoop_events_pre env.set cfg.process.rlimits [] ev
          (by rw [show (setRlimitLoop env.set [] cfg.process.rlimits).2 = tr from by
                rw [show setRlimitLoop env.set [] cfg.process.rlimits = (o, tr) from hsr]]
              exact hev)
      cases o with
      | some e =>
        left
        have hrun : startProcess cfg env =
            (ChildOutcome.fail e, Event.chdir (resolveCwd cfg.process.cwd) :: tr) := by
          simp [startProcess, habs, hch, hsr]
        refine ⟨e, _, hrun, ?_⟩
        intro ev hev
        simp at hev
        rcases hev with hev | hev
        · simp [hev, isPreEvent]
        · exact htr ev hev
      | none =>
        rcases hargs' : cfg.process.args with _ | ⟨a0, rest⟩
        · exact absurd hargs' hargs
        · cases hlp : env.lookPath a0 with
          | error e =>
            left
            have hrun : startProcess cfg env =
                (ChildOutcome.fail e, Event.chdir (resolveCwd cfg.process.cwd) :: tr ++
                  pathEnvEvents cfg.process.env ++ [Event.lookPath a0]) := by
              simp [startProcess, habs, hch, hsr, hne, hargs', hlp]
            refine ⟨e, _, hrun, ?_⟩
            intro ev hev
            simp at hev
            rcases hev with hev | hev | hev | hev
            · simp [hev, isPreEvent]
            · exact htr ev hev
            · exact pathEnvEvents_pre cfg.process.env ev hev
            · simp [hev, isPreEvent]
          | ok bp =>
            rcases hpts : ptsPhase cfg env with ⟨po, ptr⟩
            have hptr : ∀ ev ∈ ptr, isPreEvent ev = true := by
              intro ev hev
              exact ptsPhase_events_pre cfg env ev
                (by rw [show (ptsPhase cfg env).2 = ptr from by rw [hpts]]; exact hev)
            cases po with
            | some e =>
              left
              have hrun : startProcess cfg env =
                  (ChildOutcome.fail e, Event.chdir (resolveCwd cfg.process.cwd) :: tr ++
                    pathEnvEvents cfg.process.env ++ [Event.lookPath a0] ++ ptr) := by
                simp [startProcess, habs, hch, hsr, hne, hargs', hlp, hpts]
              refine ⟨e, _, hrun, ?_⟩
              intro ev hev
              simp at hev
              rcases hev with hev | hev | hev | hev | hev
              · simp [hev, isPreEvent]
              · exact htr ev hev
              · exact pathEnvEvents_pre cfg.process.env ev hev
              · simp [hev, isPreEvent]
              · exact hptr ev hev
            | none =>
              right
              refine ⟨bp, Event.chdir (resolveCwd cfg.process.cwd) :: tr ++
                pathEnvEvents cfg.process.env ++ [Event.lookPath a0] ++ ptr, ?_, ?_⟩
              · intro ev hev
                simp at hev
                rcases hev with hev | hev | hev | hev | hev
                · simp [hev, isPreEvent]
                · exact htr ev hev
                · exact pathEnvEvents_pre cfg.process.env ev hev
                · simp [hev, isPreEvent]
                · exact hptr ev hev
              · simp [startProcess, habs, hch, hsr, hne, hargs', hlp, hpts]

theorem handshakePhase_exec_mem (env : ChildEnv) (bp p : String)
    (hm : Event.exec p ∈ (handshakePhase env bp).2) :
    env.writeRes 0 = none ∧ env.readRes 0 = none ∧
    ∃ pre post, (handshakePhase env bp).2 =
      pre ++ [Event.connWrite tokByte, Event.connRead, Event.securityConfigure,
              Event.exec p] ++ post := by
  cases hw : env.writeRes 0 with
  | some e => simp [handshakePhase, hw] at hm
  | none =>
    cases hr : env.readRes 0 with
    | some e => simp [handshakePhase, hw, hr] at hm
    | none =>
      cases hs : env.securityErr with
      | some e => simp [handshakePhase, hw, hr, hs] at hm
      | none =>
        cases he : env.execErr with
        | none =>
          have hp : p = bp := by simpa [handshakePhase, hw, hr, hs, he] using hm
          subst hp
          exact ⟨rfl, rfl, [], [], by simp [handshakePhase, hw, hr, hs, he]⟩
        | some e =>
          cases hw1 : env.writeRes 1 with
          | none =>
            have hp : p = bp := by simpa [handshakePhase, hw, hr, hs, he, hw1] using hm
            subst hp
            exact ⟨rfl, rfl, [], [Event.connWrite tokByte],
              by simp [handshakePhase, hw, hr, hs, he, hw1]⟩
          | some we =>
            have hp : p = bp := by simpa [handshakePhase, hw, hr, hs, he, hw1] using hm
            subst hp
            exact ⟨rfl, rfl, [],
              [Event.connWrite tokByte, Event.logError ("fail to send data to Smaster: " ++ we)],
              by simp [handshakePhase, hw, hr, hs, he, hw1]⟩

theorem handshakePhase_handshake_fail (env : ChildEnv) (bp : String)
    (hfail : env.writeRes 0 ≠ none ∨ env.readRes 0 ≠ none) :
    (∃ m, (handshakePhase env bp).1 = ChildOutcome.fail m) ∧
    Event.securityConfigure ∉ (handshakePhase env bp).2 ∧
    ∀ p, Event.exec p ∉ (handshakePhase env bp).2 := by
  cases hw : env.writeRes 0 with
  | some e =>
    exact ⟨⟨"failed to pause process: " ++ e, by simp [handshakePhase, hw]⟩,
      by simp [handshakePhase, hw], fun p => by simp [handshakePhase, hw]⟩
  | none =>
    cases hr : env.readRes 0 with
    | some e =>
      exact ⟨⟨"failed to receive ack from Smaster: " ++ e, by simp [handshakePhase, hw, hr]⟩,
        by simp [handshakePhase, hw, hr], fun p => by simp [handshakePhase, hw, hr]⟩
    | none =>
      rcases hfail with h | h
      · exact absurd hw h
      · exact absurd hr h

/-- Claim C2: in normal mode with a non-empty argument vector, the exec event
only appears after a successful pause-notify write and a successful resume
read, directly preceded in the trace by that write, that read and the
security-policy application; and if either handshake operation fails,
StartProcess returns an error and neither the security policy nor exec is
ever reached. -/
theorem startProcess_exec_only_after_handshake (cfg : EngineConfig) (env : ChildEnv)
    (hne : cfg.emptyProcess = false) (hargs : cfg.process.args ≠ []) :
    (∀ p, Event.exec p ∈ (startProcess cfg env).2 →
      env.writeRes 0 = none ∧ env.readRes 0 = none ∧
      ∃ pre post, (startProcess cfg env).2 =
        pre ++ [Event.connWrite tokByte, Event.connRead, Event.securityConfigure,
                Event.exec p] ++ post) ∧
    ((env.writeRes 0 ≠ none ∨ env.readRes 0 ≠ none) →
      (∃ m, (startProcess cfg env).1 = ChildOutcome.fail m) ∧
      Event.securityConfigure ∉ (startProcess cfg env).2 ∧
      ∀ p, Event.exec p ∉ (startProcess cfg env).2) := by
  rcases startProcess_cases cfg env hne hargs with ⟨m, tr, hrun, hpre⟩ | ⟨bp, pre, hpre, hrun⟩
  · constructor
    · intro p hp
      rw [hrun] at hp
      have := hpre _ hp
      simp [isPreEvent] at this
    · intro _
      refine ⟨⟨m, by rw [hrun]⟩, ?_, ?_⟩
      · intro hmem
        rw [hrun] at hmem
        have := hpre _ hmem
        simp [isPreEvent] at this
      · intro p hmem
        rw [hrun] at hmem
        have := hpre _ hmem
        simp [isPreEvent] at this
  · constructor
    · intro p hp
      rw [hrun] at hp
      simp only [List.mem_append] at hp
      rcases hp with hp | hp
      · have := hpre _ hp
        simp [isPreEvent] at this
      · obtain ⟨hw, hr, pre2, post, hshape⟩ := handshakePhase_exec_mem env bp p hp
        refine ⟨hw, hr, pre ++ pre2, post, ?_⟩
        rw [hrun]
        simp only [hshape]
        simp [List.append_assoc]
    · intro hfail
      obtain ⟨⟨m', h1⟩, h2, h3⟩ := handshakePhase_handshake_fail env bp hfail
      refine ⟨⟨m', by rw [hrun]; exact h1⟩, ?_, ?_⟩
      · intro hmem
        rw [hrun] at hmem
        simp only [List.mem_append] at hmem
        rcases hmem with hmem | hmem
        · have := hpre _ hmem
          simp [isPreEvent] at this
        · exact h2 hmem
      · intro p hmem
        rw [hrun] at hmem
        simp only [List.mem_append] at hmem
        rcases hmem with hmem | hmem
        · have := hpre _ hmem
          simp [isPreEvent] at this
        · exact h3 p hmem

/-- Witness for C2 at the concrete all-success run. -/
theorem startProcess_exec_only_after_handshake_witness :
    okCfg.emptyProcess = false ∧ okCfg.process.args ≠ [] ∧
    (okChildEnv.writeRes 0 = none ∧ okChildEnv.readRes 0 = none ∧
     ∃ pre post, (startProcess okCfg okChildEnv).2 =
       pre ++ [Event.connWrite tokByte, Event.connRead, Event.securityConfigure,
               Event.exec "/bin/true"] ++ post) :=
  ⟨rfl, by decide,
   (startProcess_exec_only_after_handshake okCfg okChildEnv rfl (by decide)).1
     "/bin/true" (by decide)⟩

/-- Claim C8: a non-empty, non-absolute working directory makes StartProcess
fail with the configuration error before any observable action: the event
trace is empty, so no directory change, no resource-limit application, and
no handshake access happened. -/
theorem startProcess_relative_cwd (cfg : EngineConfig) (env : ChildEnv)
    (hne : cfg.process.cwd ≠ "") (hrel : isAbs cfg.process.cwd = false) :
    startProcess cfg env =
      (ChildOutcome.fail "cwd property must be an absolute path", []) := by
  have h1 : resolveCwd cfg.process.cwd = cfg.process.cwd := by simp [resolveCwd, hne]
  simp [startProcess, h1, hrel]

/-- Witness for C8 at a concrete relative working directory. -/
theorem startProcess_relative_cwd_witness :
    relCfg.process.cwd ≠ "" ∧ isAbs relCfg.process.cwd = false ∧
    startProcess relCfg okChildEnv =
      (ChildOutcome.fail "cwd property must be an absolute path", []) :=
  ⟨by decide, by decide, startProcess_relative_cwd relCfg okChildEnv (by decide) (by decide)⟩

theorem startProcess_chdir_head (cfg : EngineConfig) (env : ChildEnv)
    (habs : isAbs (resolveCwd cfg.process.cwd) = true) :
    ∃ rest, (startProcess cfg env).2 = Event.chdir (resolveCwd cfg.process.cwd) :: rest := by
  have habs' : ¬ isAbs (resolveCwd cfg.process.cwd) = false := by simp [habs]
  cases hch : env.chdirErr (resolveCwd cfg.process.cwd) with
  | some e => exact ⟨[], by simp [startProcess, habs', hch]⟩
  | none =>
    rcases hsr : setRlimit env.set cfg.process.rlimits with ⟨o, tr⟩
    cases o with
    | some e => exact ⟨tr, by simp [startProcess, habs', hch, hsr]⟩
    | none =>
      by_cases hep : cfg.emptyProcess = true
      · exact ⟨tr ++ (emptyProcessRun env).2, by simp [startProcess, habs', hch, hsr, hep]⟩
      · have hep' : cfg.emptyProcess = false := by simpa using hep
        rcases hargs : cfg.process.args with _ | ⟨a0, rest⟩
        · exact ⟨tr ++ pathEnvEvents cfg.process.env,
            by simp [startProcess, habs', hch, hsr, hep', hargs]⟩
        · cases hlp : env.lookPath a0 with
          | error e =>
            exact ⟨tr ++ pathEnvEvents cfg.process.env ++ [Event.lookPath a0],
              by simp [startProcess, habs', hch, hsr, hep', hargs, hlp]⟩
          | ok bp =>
            rcases hpts : ptsPhase cfg env with ⟨po, ptr⟩
            cases po with
            | some e =>
              exact ⟨tr ++ pathEnvEvents cfg.process.env ++ [Event.lookPath a0] ++ ptr,
                by simp [startProcess, habs', hch, hsr, hep', hargs, hlp, hpts]⟩
            | none =>
              exact ⟨tr ++ pathEnvEvents cfg.process.env ++ [Event.lookPath a0] ++ ptr ++
                  (handshakePhase env bp).2,
                by simp [startProcess, habs', hch, hsr, hep', hargs, hlp, hpts]⟩

/-- Claim C9: an empty working-directory field is not rejected: the run is
identical to the run with the root directory as working directory, and it
proceeds into the directory change (the trace starts with the chdir into
the root directory). -/
theorem startProcess_empty_cwd (cfg : EngineConfig) (env : ChildEnv)
    (hc : cfg.process.cwd = "") :
    startProcess cfg env =
      startProcess { cfg with process := { cfg.process with cwd := "/" } } env ∧
    ∃ rest, (startProcess cfg env).2 = Event.chdir "/" :: rest := by
  have h1 : resolveCwd cfg.process.cwd = "/" := by simp [resolveCwd, hc]
  constructor
  · obtain ⟨⟨cwd, args, envl, rl⟩, ep, mp⟩ := cfg
    simp only at hc
    subst hc
    rfl
  · have habs : isAbs (resolveCwd cfg.process.cwd) = true := by
      rw [h1]; decide
    obtain ⟨rest, hrest⟩ := startProcess_chdir_head cfg env habs
    exact ⟨rest, by rw [hrest, h1]⟩

/-- Witness for C9 at a concrete configuration with an empty working
directory. -/
theorem startProcess_empty_cwd_witness :
    emptyCwdCfg.process.cwd = "" ∧
    (startProcess emptyCwdCfg okChildEnv =
      startProcess { emptyCwdCfg with
        process := { emptyCwdCfg.process with cwd := "/" } } okChildEnv ∧
     ∃ rest, (startProcess emptyCwdCfg okChildEnv).2 = Event.chdir "/" :: rest) :=
  ⟨rfl, startProcess_empty_cwd emptyCwdCfg okChildEnv rfl⟩

theorem isConnWrite_false_of_pre (ev : Event) (h : isPreEvent ev = true) :
    isConnWrite ev = false := by
  cases ev <;> simp_all [isPreEvent, isConnWrite]

/-- Claim C6 as amended: when the security-policy application fails in the
normal path, StartProcess returns the security-configuration error at once;
the trace ends at the security step, and the only handshake write in the
whole run is the pause-notify token, so no further best-effort token is
written (that token is written only after a failed exec). -/
theorem startProcess_security_failure (cfg : EngineConfig) (env : ChildEnv)
    (a0 : String) (rest : List String) (bp : String) (e : Err) (tr : List Event)
    (hne : cfg.emptyProcess = false)
    (hargs : cfg.process.args = a0 :: rest)
    (habs : isAbs (resolveCwd cfg.process.cwd) = true)
    (hch : env.chdirErr (resolveCwd cfg.process.cwd) = none)
    (hsr : setRlimit env.set cfg.process.rlimits = (none, tr))
    (hlp : env.lookPath a0 = Except.ok bp)
    (hpts : cfg.masterPts = -1)
    (hw : env.writeRes 0 = none) (hr : env.readRes 0 = none)
    (hs : env.securityErr = some e) :
    startProcess cfg env =
      (ChildOutcome.fail ("failed to apply security configuration: " ++ e),
       Event.chdir (resolveCwd cfg.process.cwd) :: tr ++ pathEnvEvents cfg.process.env ++
         [Event.lookPath a0, Event.connWrite tokByte, Event.connRead,
          Event.securityConfigure]) ∧
    (startProcess cfg env).2.filter isConnWrite = [Event.connWrite tokByte] := by
  have habs' : ¬ isAbs (resolveCwd cfg.process.cwd) = false := by simp [habs]
  have hptsrun : ptsPhase cfg env = (none, []) := by simp [ptsPhase, hpts]
  have hhs : handshakePhase env bp =
      (ChildOutcome.fail ("failed to apply security configuration: " ++ e),
       [Event.connWrite tokByte, Event.connRead, Event.securityConfigure]) := by
    simp [handshakePhase, hw, hr, hs]
  have hrun : startProcess cfg env =
      (ChildOutcome.fail ("failed to apply security configuration: " ++ e),
       Event.chdir (resolveCwd cfg.process.cwd) :: tr ++ pathEnvEvents cfg.process.env ++
         [Event.lookPath a0, Event.connWrite tokByte, Event.connRead,
          Event.securityConfigure]) := by
    simp [startProcess, habs', hch, hsr, hne, hargs, hlp, hptsrun, hhs]
  have htr0 : tr.filter isConnWrite = [] := by
    rw [List.filter_eq_nil_iff]
    intro a ha
    have hp : isPreEvent a = true := by
      apply setRlimitLoop_events_pre env.set cfg.process.rlimits []
      rw [show (setRlimitLoop env.set [] cfg.process.rlimits).2 = tr from by
        rw [show setRlimitLoop env.set [] cfg.process.rlimits = (none, tr) from hsr]]
      exact ha
    simp [isConnWrite_false_of_pre a hp]
  have hpe0 : (pathEnvEvents cfg.process.env).filter isConnWrite = [] := by
    rw [List.filter_eq_nil_iff]
    intro a ha
    simp [isConnWrite_false_of_pre a (pathEnvEvents_pre cfg.process.env a ha)]
  refine ⟨hrun, ?_⟩
  rw [hrun]
  simp only [List.filter_cons, List.filter_append, htr0, hpe0]
  simp [isConnWrite]

/-- Counterexample to claim C6 as stated: at a concrete all-success run
whose security-policy application fails, the child writes nothing further on
the handshake; the whole trace holds exactly one handshake write, the
pause-notify token sent before the failure, and the run ends at the
security step. -/
theorem startProcess_security_failure_counterexample :
    startProcess okCfg secFailChildEnv =
      (ChildOutcome.fail "failed to apply security configuration: denied",
       [Event.chdir "/", Event.lookPath "/bin/true", Event.connWrite tokByte,
        Event.connRead, Event.securityConfigure]) ∧
    ((startProcess okCfg secFailChildEnv).2.filter isConnWrite).length = 1 := by
  decide

/-- Witness for the amended C6 at the concrete failing-security run. -/
theorem startProcess_security_failure_witness :
    secFailChildEnv.securityErr = some "denied" ∧
    (startProcess okCfg secFailChildEnv =
      (ChildOutcome.fail ("failed to apply security configuration: " ++ "denied"),
       Event.chdir (resolveCwd okCfg.process.cwd) :: ([] : List Event) ++
         pathEnvEvents okCfg.process.env ++
         [Event.lookPath "/bin/true", Event.connWrite tokByte, Event.connRead,
          Event.securityConfigure]) ∧
     (startProcess okCfg secFailChildEnv).2.filter isConnWrite =
       [Event.connWrite tokByte]) :=
  ⟨rfl, startProcess_security_failure okCfg secFailChildEnv "/bin/true" [] "/bin/true"
    "denied" [] rfl rfl (by decide) rfl rfl rfl rfl rfl rfl rfl⟩

/-- Claim C1: the code, evaluated at the failing input.  When the handshake
read at the end of PreStartProcess yields one data byte with a nil error
(the very situation the child produces to say that exec failed),
PreStartProcess returns the nil error, that is no error at all, and the
driver therefore goes on to PostStartProcess, which persists the running
state. -/
theorem preStart_data_byte_not_error :
    (preStartProcess 7 okPreCfg dataByteParentEnv).1 = none ∧
    PEvent.updateState "running" ∈
      (controllerStartSequence 7 okPreCfg 0 dataByteParentEnv).2 := by
  decide

theorem runPrestartHooks_ok (hookErr : Nat → Option Err) :
    ∀ (n k : Nat), (∀ i, i < n → hookErr (k + i) = none) →
    runPrestartHooks hookErr k n =
      (none, (List.range n).map fun j => PEvent.hook (k + j)) := by
  intro n
  induction n with
  | zero => intro k _; simp [runPrestartHooks]
  | succ n ih =>
    intro k h
    have h0 : hookErr k = none := by simpa using h 0 (Nat.succ_pos n)
    have ih' := ih (k + 1) (fun i hi => by
      have hx := h (i + 1) (by omega)
      rw [show k + (i + 1) = k + 1 + i by omega] at hx
      exact hx)
    simp [runPrestartHooks, h0, ih', List.range_succ_eq_map, List.map_map, Function.comp,
      Nat.add_comm, Nat.add_assoc, Nat.add_left_comm]

theorem preStart_annotate_mem (pid : Int) (cfg : PreStartCfg) (env : ParentEnv)
    (htr : List PEvent)
    (hh : runPrestartHooks env.prestartHookErr 0 cfg.prestartHooks = (none, htr)) :
    PEvent.annotate "io.sylabs.runtime.oci.attach-socket"
        (dirPath env.instGet.1 ++ "/" ++ cfg.containerID ++ ".sock")
      ∈ (preStartProcess pid cfg env).2 := by
  cases hcs : env.createSocketErr with
  | some e2 => simp [preStartProcess, hh, hcs]
  | none =>
    cases hus : env.updateStateErr "created" with
    | some e2 => simp [preStartProcess, hh, hcs, hus]
    | none =>
      cases haw : env.ackWriteErr with
      | some e2 => simp [preStartProcess, hh, hcs, hus, haw]
      | none =>
        cases hfr : env.finalRead with
        | none => simp [preStartProcess, hh, hcs, hus, haw, hfr]
        | some r => cases r <;> simp [preStartProcess, hh, hcs, hus, haw, hfr]

/-- Claim C10: PreStartProcess never inspects the error of the
instance-metadata lookup: the whole run is unchanged when that error is
erased, and, whenever the Prestart hooks succeed, the attach-socket path is
still derived from the returned file value and recorded in the state map,
error or not. -/
theorem preStartProcess_unchecked_instGet (pid : Int) (cfg : PreStartCfg)
    (env : ParentEnv) (path : String) (e : Err) :
    preStartProcess pid cfg { env with instGet := (path, some e) } =
      preStartProcess pid cfg { env with instGet := (path, none) } ∧
    ((∀ i, i < cfg.prestartHooks → env.prestartHookErr i = none) →
      PEvent.annotate "io.sylabs.runtime.oci.attach-socket"
          (dirPath path ++ "/" ++ cfg.containerID ++ ".sock")
        ∈ (preStartProcess pid cfg { env with instGet := (path, some e) }).2) := by
  constructor
  · obtain ⟨hp, hq, ig, cs, us, aw, fr⟩ := env
    rfl
  · intro hh
    have hhook := runPrestartHooks_ok env.prestartHookErr cfg.prestartHooks 0
      (fun i hi => by simpa using hh i hi)
    have hmem := preStart_annotate_mem pid cfg { env with instGet := (path, some e) }
      ((List.range cfg.prestartHooks).map fun j => PEvent.hook j)
      (by simpa using hhook)
    simpa using hmem

/-- Witness for C10 at a concrete lookup failure. -/
theorem preStartProcess_unchecked_instGet_witness :
    preStartProcess 7 okPreCfg
        { dataByteParentEnv with instGet := ("/run/s/c1.json", some "boom") } =
      preStartProcess 7 okPreCfg
        { dataByteParentEnv with instGet := ("/run/s/c1.json", none) } ∧
    PEvent.annotate "io.sylabs.runtime.oci.attach-socket"
        (dirPath "/run/s/c1.json" ++ "/" ++ okPreCfg.containerID ++ ".sock")
      ∈ (preStartProcess 7 okPreCfg
          { dataByteParentEnv with instGet := ("/run/s/c1.json", some "boom") }).2 :=
  ⟨(preStartProcess_unchecked_instGet 7 okPreCfg dataByteParentEnv "/run/s/c1.json" "boom").1,
   (preStartProcess_unchecked_instGet 7 okPreCfg dataByteParentEnv "/run/s/c1.json" "boom").2
     (fun i hi => absurd hi (Nat.not_lt_zero i))⟩

theorem writeAll_base_ok (beh : Nat → List Nat → Nat × Option Err) (p : List Nat) :
    ∀ (ids : List Nat) (rest : List GoWriter),
    (∀ i ∈ ids, beh i p = (p.length, none)) →
    writeAll beh p (ids.map GoWriter.base ++ rest) =
      ((writeAll beh p rest).1, (ids.map fun i => (i, p)) ++ (writeAll beh p rest).2) := by
  intro ids
  induction ids with
  | nil => intro rest _; simp
  | cons i ids ih =>
    intro rest hok
    have hi : beh i p = (p.length, none) := hok i (by simp)
    have ih' := ih rest (fun j hj => hok j (by simp [hj]))
    simp [writeAll, writeOne, hi, ih']

theorem writeAll_base_ok_of_result (beh : Nat → List Nat → Nat × Option Err) (p : List Nat) :
    ∀ ids : List Nat, (writeAll beh p (ids.map GoWriter.base)).1 = (p.length, none) →
      ∀ i ∈ ids, beh i p = (p.length, none) := by
  intro ids
  induction ids with
  | nil => intro _ i hi; simp at hi
  | cons i ids ih =>
    intro hres j hj
    rcases hbeh : beh i p with ⟨n, err⟩
    cases err with
    | some e => simp [writeAll, writeOne, hbeh] at hres
    | none =>
      by_cases hn : n = p.length
      · subst hn
        simp [writeAll, writeOne, hbeh] at hres
        rcases List.mem_cons.mp hj with hj | hj
        · exact hj ▸ hbeh
        · exact ih hres j hj
      · simp [writeAll, writeOne, hbeh, hn] at hres

/-- Claim C4: multiWriter.Write over destinations w1..wK delivers in the
order the destinations were added; it answers (len p, no error) exactly when
every destination accepted all of p, in which case every destination got one
delivery of p; and the first failing destination aborts the call, with the
destination error returned as is, a short write turned into the short write
error, and no delivery to any destination past the failing one. -/
theorem multiWriter_write_c4 (beh : Nat → List Nat → Nat × Option Err) (p : List Nat)
    (ids : List Nat) :
    ((writeAll beh p (ids.map GoWriter.base)).1 = (p.length, none) ↔
      ∀ i ∈ ids, beh i p = (p.length, none)) ∧
    ((∀ i ∈ ids, beh i p = (p.length, none)) →
      (writeAll beh p (ids.map GoWriter.base)).2 = ids.map fun i => (i, p)) ∧
    (∀ pre i post, ids = pre ++ i :: post →
      (∀ j ∈ pre, beh j p = (p.length, none)) →
      ((∀ e, (beh i p).2 = some e →
         writeAll beh p (ids.map GoWriter.base) =
           (((beh i p).1, some e), (pre ++ [i]).map fun j => (j, p))) ∧
       ((beh i p).2 = none → (beh i p).1 ≠ p.length →
         writeAll beh p (ids.map GoWriter.base) =
           (((beh i p).1, some "short write"), (pre ++ [i]).map fun j => (j, p))))) := by
  refine ⟨⟨fun h => writeAll_base_ok_of_result beh p ids h, fun h => ?_⟩, fun h => ?_, ?_⟩
  · have := writeAll_base_ok beh p ids [] h
    simp [writeAll] at this
    simp [this]
  · have := writeAll_base_ok beh p ids [] h
    simp [writeAll] at this
    simp [this]
  · intro pre i post hids hpre
    subst hids
    have hsplit := writeAll_base_ok beh p pre (GoWriter.base i :: post.map GoWriter.base) hpre
    constructor
    · intro e he
      rcases hbeh : beh i p with ⟨n, err⟩
      rw [hbeh] at he
      simp only at he
      subst he
      have hinner : writeAll beh p (GoWriter.base i :: post.map GoWriter.base) =
          ((n, some e), [(i, p)]) := by
        simp [writeAll, writeOne, hbeh]
      rw [show (pre ++ i :: post).map GoWriter.base
          = pre.map GoWriter.base ++ GoWriter.base i :: post.map GoWriter.base from by simp]
      rw [hsplit, hinner]
      simp [hbeh]
    · intro he hn
      rcases hbeh : beh i p with ⟨n, err⟩
      rw [hbeh] at he hn
      simp only at he hn
      subst he
      have hinner : writeAll beh p (GoWriter.base i :: post.map GoWriter.base) =
          ((n, some "short write"), [(i, p)]) := by
        simp [writeAll, writeOne, hbeh, hn]
      rw [show (pre ++ i :: post).map GoWriter.base
          = pre.map GoWriter.base ++ GoWriter.base i :: post.map GoWriter.base from by simp]
      rw [hsplit, hinner]
      simp [hbeh]

/-- Witness for C4 at a concrete two-destination broadcaster, on the
all-success run and on a run whose first destination reports an error. -/
theorem multiWriter_write_c4_witness :
    (writeAll (fun _ q => (q.length, none)) [7, 8] ([1, 2].map GoWriter.base)).1 =
      ([7, 8].length, none) ∧
    (writeAll (fun _ q => (q.length, none)) [7, 8] ([1, 2].map GoWriter.base)).2 =
      ([1, 2].map fun i => (i, [7, 8])) ∧
    writeAll (fun i q => if i = 1 then (0, some "boom") else (q.length, none)) [7, 8]
        ([1, 2].map GoWriter.base) =
      ((0, some "boom"), [(1, [7, 8])]) :=
  ⟨(multiWriter_write_c4 (fun _ q => (q.length, none)) [7, 8] [1, 2]).1.mpr (by decide),
   (multiWriter_write_c4 (fun _ q => (q.length, none)) [7, 8] [1, 2]).2.1 (by decide),
   ((multiWriter_write_c4 (fun i q => if i = 1 then (0, some "boom") else (q.length, none))
       [7, 8] [1, 2]).2.2 [] 1 [2] rfl (by decide)).1 "boom" (by decide)⟩

theorem appendFlattened_base :
    ∀ ids : List Nat, appendFlattened (ids.map GoWriter.base) = ids.map GoWriter.base := by
  intro ids
  induction ids with
  | nil => simp [appendFlattened]
  | cons i ids ih => simp [appendFlattened, flattenArg, ih]

theorem appendFlattened_base_append (ids : List Nat) (rest : List GoWriter) :
    appendFlattened (ids.map GoWriter.base ++ rest) =
      ids.map GoWriter.base ++ appendFlattened rest := by
  induction ids with
  | nil => simp
  | cons i ids ih => simp [appendFlattened, flattenArg, ih]

/-- Counterexample to claim C5 as stated: adding a broadcaster through Add
does not flatten it; the writers slice ends up holding the broadcaster
itself, nested, not its underlying destinations as the claim-following
addSpec would produce. -/
theorem addGo_nests_counterexample :
    addGo (MultiWriterGo [GoWriter.base 0]) (MultiWriterGo [GoWriter.base 1]) =
      GoWriter.mw [GoWriter.base 0, GoWriter.mw [GoWriter.base 1]] ∧
    addGo (MultiWriterGo [GoWriter.base 0]) (MultiWriterGo [GoWriter.base 1]) ≠
      addSpec (MultiWriterGo [GoWriter.base 0]) (MultiWriterGo [GoWriter.base 1]) := by
  constructor
  · rfl
  · intro h
    have h2 : GoWriter.mw [GoWriter.base 0, GoWriter.mw [GoWriter.base 1]] =
        GoWriter.mw [GoWriter.base 0, GoWriter.base 1] := h
    injection h2 with hl
    injection hl with h0 hl2
    injection hl2 with h1 hl3
    exact GoWriter.noConfusion h1

/-- Claim C5 as amended: flattening happens only at construction.
Supplying the existing broadcaster built over the second destination list as
a MultiWriter argument flattens it into its current underlying destinations,
and a write through the construction delivers the byte sequence exactly once
to each underlying destination, in order; Add instead appends the given
broadcaster itself, nesting it, and still one write through the combined
broadcaster delivers the byte sequence exactly once to each underlying
destination, in order, through the nested broadcaster. -/
theorem multiWriter_flatten_c5 (beh : Nat → List Nat → Nat × Option Err) (p : List Nat)
    (ids1 ids2 : List Nat)
    (hok : ∀ i ∈ ids1 ++ ids2, beh i p = (p.length, none)) :
    MultiWriterGo (ids1.map GoWriter.base ++ [MultiWriterGo (ids2.map GoWriter.base)]) =
      GoWriter.mw (ids1.map GoWriter.base ++ ids2.map GoWriter.base) ∧
    writeOne beh p (MultiWriterGo (ids1.map GoWriter.base ++
        [MultiWriterGo (ids2.map GoWriter.base)])) =
      ((p.length, none), (ids1 ++ ids2).map fun i => (i, p)) ∧
    addGo (MultiWriterGo (ids1.map GoWriter.base)) (MultiWriterGo (ids2.map GoWriter.base)) =
      GoWriter.mw (ids1.map GoWriter.base ++ [GoWriter.mw (ids2.map GoWriter.base)]) ∧
    writeOne beh p (addGo (MultiWriterGo (ids1.map GoWriter.base))
        (MultiWriterGo (ids2.map GoWriter.base))) =
      ((p.length, none), (ids1 ++ ids2).map fun i => (i, p)) := by
  have hok1 : ∀ i ∈ ids1, beh i p = (p.length, none) := fun i hi => hok i (by simp [hi])
  have hok2 : ∀ i ∈ ids2, beh i p = (p.length, none) := fun i hi => hok i (by simp [hi])
  have hcons : MultiWriterGo (ids1.map GoWriter.base ++
      [MultiWriterGo (ids2.map GoWriter.base)]) =
      GoWriter.mw (ids1.map GoWriter.base ++ ids2.map GoWriter.base) := by
    simp [MultiWriterGo, appendFlattened_base, appendFlattened_base_append,
      appendFlattened, flattenArg]
  have hflatwrite : writeOne beh p (GoWriter.mw (ids1.map GoWriter.base ++
      ids2.map GoWriter.base)) =
      ((p.length, none), (ids1 ++ ids2).map fun i => (i, p)) := by
    have := writeAll_base_ok beh p (ids1 ++ ids2) [] hok
    rw [show (ids1 ++ ids2).map GoWriter.base
        = ids1.map GoWriter.base ++ ids2.map GoWriter.base from by simp] at this
    simp only [writeOne]
    simpa [writeAll] using this
  have hadd : addGo (MultiWriterGo (ids1.map GoWriter.base))
      (MultiWriterGo (ids2.map GoWriter.base)) =
      GoWriter.mw (ids1.map GoWriter.base ++ [GoWriter.mw (ids2.map GoWriter.base)]) := by
    simp [addGo, MultiWriterGo, appendFlattened_base]
  refine ⟨hcons, by rw [hcons]; exact hflatwrite, hadd, ?_⟩
  rw [hadd]
  have hinner2 : writeAll beh p (ids2.map GoWriter.base) =
      ((p.length, none), ids2.map fun i => (i, p)) := by
    have := writeAll_base_ok beh p ids2 [] hok2
    simpa [writeAll] using this
  have hone : writeAll beh p [GoWriter.mw (ids2.map GoWriter.base)] =
      ((p.length, none), ids2.map fun i => (i, p)) := by
    simp [writeAll, writeOne, hinner2]
  have := writeAll_base_ok beh p ids1 [GoWriter.mw (ids2.map GoWriter.base)] hok1
  rw [hone] at this
  simp only [writeOne]
  rw [this]
  simp

/-- Witness for the amended C5: a concrete broadcaster handed to the
constructor is flattened and delivers once to each underlying destination,
and the same broadcaster handed to Add is nested and still delivers once to
each underlying destination. -/
theorem multiWriter_flatten_c5_witness :
    MultiWriterGo ([2, 3].map GoWriter.base ++ [MultiWriterGo ([5].map GoWriter.base)]) =
      GoWriter.mw ([2, 3].map GoWriter.base ++ [5].map GoWriter.base) ∧
    writeOne (fun _ q => (q.length, none)) [9]
        (MultiWriterGo ([2, 3].map GoWriter.base ++
          [MultiWriterGo ([5].map GoWriter.base)])) =
      (([9].length, none), ([2, 3] ++ [5]).map fun i => (i, [9])) ∧
    addGo (MultiWriterGo ([2, 3].map GoWriter.base)) (MultiWriterGo ([5].map GoWriter.base)) =
      GoWriter.mw ([2, 3].map GoWriter.base ++ [GoWriter.mw ([5].map GoWriter.base)]) ∧
    writeOne (fun _ q => (q.length, none)) [9]
        (addGo (MultiWriterGo ([2, 3].map GoWriter.base))
          (MultiWriterGo ([5].map GoWriter.base))) =
      (([9].length, none), ([2, 3] ++ [5]).map fun i => (i, [9])) :=
  multiWriter_flatten_c5 (fun _ q => (q.length, none)) [9] [2, 3] [5] (by decide)

/-- Claim C3: the code, evaluated past the cap.  With every Accept
succeeding, the loop wires the first ten clients, skips the iteration at
the cap, and then, on the very next connection attempt, faults on the
out-of-range index 11 into the 10-element connection slice, so the accept
loop does not stay in bounds once the ceiling is passed and the whole
multiplexer, which carries every already-connected client, dies. -/
theorem handleStream_cap_overflow_faults :
    StreamEvent.panickedIndex 11 10 ∈ handleStream (fun k => Except.ok (100 + k)) 12 ∧
    ((handleStream (fun k => Except.ok (100 + k)) 12).filter isWireEvent).length = 10 ∧
    StreamEvent.skipped 10 ∈ handleStream (fun k => Except.ok (100 + k)) 12 := by
  decide

end Oci
